import Mathlib

/-!
Verification of the log-replication core in `src/nameserver/master_slave.cc`
(class `MasterSlaveImpl`).  The embedding below is a shallow model of that
file: the on-disk log is a list of bytes, the three watermarks and the
degraded-mode flag are fields of a node state, and every operation of the
source is a Lean function on that state.  Abort paths (`LOG(FATAL)` and
failed `assert`) are modelled as `none`.
-/

set_option maxHeartbeats 1000000
set_option linter.unusedVariables false
set_option linter.unnecessarySeqFocus false

namespace BfsSync

/-- Little-endian encoding of a 32-bit length, as written by `LogLocal` and
the standby `AppendLog` (`memcpy(buf, &len, 4)` on a little-endian machine). -/
def le32enc (n : Nat) : List Nat :=
  [n % 256, n / 256 % 256, n / 65536 % 256, n / 16777216 % 256]

/-- Little-endian decoding of the first four bytes of a list, as done by
`memcpy(&len, buf, 4)` in `ReadEntry` and `Init`. -/
def le32dec (bs : List Nat) : Nat :=
  match bs with
  | b0 :: b1 :: b2 :: b3 :: _ => b0 + b1 * 256 + b2 * 65536 + b3 * 16777216
  | _ => 0

/-- The on-disk record for one entry: `[4-byte LE length][payload]`. -/
def encRecord (entry : List Nat) : List Nat :=
  le32enc entry.length ++ entry

/-- Result of `MasterSlaveImpl::ReadEntry` (master_slave.cc:201-217).
`ok` is the `return true` path; `corrupt` the `return false` path (length
prefix read, payload short); `assertFail` models `assert(ret == 4)` tripping
when not even the 4-byte prefix is available. -/
inductive ReadResult where
  | ok (payload : List Nat) (newPos : Nat)
  | corrupt
  | assertFail
deriving Repr, DecidableEq

/-- `MasterSlaveImpl::ReadEntry` reading the record that starts at byte
position `pos` of `file` (the `read_log_` descriptor's cursor). -/
def readEntry (file : List Nat) (pos : Nat) : ReadResult :=
  if pos + 4 ≤ file.length then
    let len := le32dec (file.drop pos)
    if pos + 4 + len ≤ file.length then
      ReadResult.ok ((file.drop (pos + 4)).take len) (pos + 4 + len)
    else ReadResult.corrupt
  else ReadResult.assertFail

/-- One replication node (`MasterSlaveImpl`): the log file bytes, the three
watermarks, the replication read cursor (`read_log_` position), the
degraded-mode flag `master_only_`, role state, the pending-callback table
(`callbacks_`, stored as the list of registered offsets), the delayed
`PorcessCallbck` timeout jobs (offset, len) pushed onto the thread pool,
and two event traces: completion callbacks fired (`fired`) and apply
callbacks (`log_callback_`) invoked (`applyCalls`). -/
structure NodeState where
  file : List Nat
  current : Nat
  sync : Nat
  applied : Nat
  cursor : Nat
  masterOnly : Bool
  isLeader : Bool
  masterAddr : Nat
  slaveAddr : Nat
  workerStarted : Bool
  callbacks : List Nat
  tasks : List (Nat × Nat)
  fired : List (Nat × Bool)
  applyCalls : List (List Nat)
deriving Repr, DecidableEq

/-- The wire response of the `AppendLog` RPC: `{success, offset}`.  The
offset field is a signed 32-bit integer (it can be `-1`). -/
structure AppendLogResponse where
  success : Bool
  offset : Int
deriving Repr, DecidableEq

/-- Standby-side `MasterSlaveImpl::AppendLog` (master_slave.cc:172-199).
Gap (`offset > current_offset_`): reject with the standby's offset.
Stale (`offset < current_offset_`): reject with `-1`.
Match: append the length-prefixed payload, invoke the apply callback,
advance `current_offset_` by `len + 4` and set `applied_offset_` to it. -/
def appendLog (s : NodeState) (reqOffset : Nat) (payload : List Nat) :
    NodeState × AppendLogResponse :=
  if s.current < reqOffset then
    (s, ⟨false, (s.current : Int)⟩)
  else if reqOffset < s.current then
    (s, ⟨false, -1⟩)
  else
    let s1 := { s with file := s.file ++ encRecord payload,
                       applyCalls := s.applyCalls ++ [payload] }
    let s2 := { s1 with current := s1.current + (payload.length + 4) }
    ({ s2 with applied := s2.current }, ⟨true, 0⟩)

/-- `MasterSlaveImpl::PorcessCallbck` (master_slave.cc:300-325).  If a
callback is pending at `offset` it is erased and invoked, `applied_offset_`
is advanced to `offset + len` if behind, and on the timeout-check path the
node enters master-only mode (early return skipping the final check).
Otherwise the final check (line 321) runs; the source writes
`master_only_ = true` there (line 323), which under its own guard
`master_only_ && ...` never changes the flag's value.  Since the source's
branches differ only in what they assign to `master_only_`, the flag
update is written as one nested conditional in that field. -/
def porcessCallbck (s : NodeState) (offset len : Nat) (timeoutCheck : Bool) :
    NodeState :=
  if offset ∈ s.callbacks then
    { s with callbacks := s.callbacks.erase offset,
             fired := s.fired ++ [(offset, true)],
             applied := if s.applied < offset + len then offset + len else s.applied,
             masterOnly :=
               if timeoutCheck && !s.masterOnly then true
               else if s.masterOnly && decide (offset + len = s.current) then true
               else s.masterOnly }
  else
    { s with masterOnly :=
               if s.masterOnly && decide (offset + len = s.current) then true
               else s.masterOnly }

/-- The locked prefix of the blocking `MasterSlaveImpl::Log`
(master_slave.cc:96-107): `LogLocal` appends the record, `current_offset_`
advances, and on the master-only fast path (`master_only_ && sync_offset_ <
last_offset`) `applied_offset_` is forced to `current_offset_`.  The Bool
reports whether the fast path was taken. -/
def appendBlocking (s : NodeState) (entry : List Nat) : NodeState × Bool :=
  let lastOffset := s.current
  let s1 := { s with file := s.file ++ encRecord entry,
                     current := s.current + (entry.length + 4) }
  if s1.masterOnly && decide (s1.sync < lastOffset) then
    ({ s1 with applied := s1.current }, true)
  else (s1, false)

/-- Blocking `MasterSlaveImpl::Log(entry, timeout_ms)` (master_slave.cc:95-132)
as one sequential call.  `caughtUp` is the oracle for whether `log_done_`
was signalled with `sync_offset_ == current_offset_` before the deadline
(lines 114-123); otherwise the timeout path (lines 129-131) sets
`master_only_`.  A call on a non-leader is `LOG(FATAL)` in `LogLocal`,
modelled as `none`.  All live paths return `true`. -/
def logBlocking (s : NodeState) (entry : List Nat) (caughtUp : Bool) :
    Option (NodeState × Bool) :=
  if s.isLeader = true then
    let r := appendBlocking s entry
    if r.2 then some (r.1, true)
    else if caughtUp then some ({ r.1 with masterOnly := false }, true)
    else some ({ r.1 with masterOnly := true }, true)
  else none

/-- Asynchronous `MasterSlaveImpl::Log(entry, callback)`
(master_slave.cc:134-153).  `LogLocal` appends; if `master_only_ &&
sync_offset_ < current_offset_` the callback fires immediately and
`applied_offset_` is forced to the (pre-advance) `current_offset_`;
otherwise the callback is registered at `current_offset_` and a delayed
`PorcessCallbck(current_offset_, len, true)` job is scheduled.  Only then
does `current_offset_` advance. -/
def logAsync (s : NodeState) (entry : List Nat) : Option NodeState :=
  if s.isLeader = true then
    let len := entry.length + 4
    let s1 := { s with file := s.file ++ encRecord entry }
    let s2 :=
      if s1.masterOnly && decide (s1.sync < s1.current) then
        { s1 with fired := s1.fired ++ [(s1.current, true)],
                  applied := s1.current }
      else
        { s1 with callbacks := s1.callbacks ++ [s1.current],
                  tasks := s1.tasks ++ [(s1.current, len)] }
    some { s2 with current := s2.current + len }
  else none

/-- `MasterSlaveImpl::SwitchToLeader` (master_slave.cc:159-169): flip
`is_leader_`, reset `sync_offset_` to 0, `lseek` the read cursor to 0,
swap the master/slave addresses, and start the background worker. -/
def switchToLeader (s : NodeState) : NodeState :=
  { s with isLeader := true, sync := 0, cursor := 0,
           masterAddr := s.slaveAddr, slaveAddr := s.masterAddr,
           workerStarted := true }

/-- The redo-log replay loop of `MasterSlaveImpl::Init`
(master_slave.cc:72-79): while `applied_offset_ < sync_offset_`, read one
entry, invoke the apply callback, advance.  A failed `ReadEntry` hits
`assert(0)`, modelled as `none`.  The recursion is driven structurally by
a fuel argument so that the definition computes by kernel reduction. -/
def replayF (fuel : Nat) (file : List Nat) (target applied cursor : Nat)
    (calls : List (List Nat)) : Option (Nat × Nat × List (List Nat)) :=
  match fuel with
  | 0 => none
  | fuel' + 1 =>
    if applied < target then
      match readEntry file cursor with
      | ReadResult.ok e np =>
        replayF fuel' file target (applied + (e.length + 4)) np (calls ++ [e])
      | _ => none
    else some (applied, cursor, calls)

/-- The replay loop with its fuel.  Every iteration of the source's loop
advances `applied_offset_` by at least 4 while `applied_offset_ <
sync_offset_`, and (in the `Init` call, where `applied` starts at the
checkpoint and `target` is the file length) never moves it past `target`,
so `target + 1 - applied` strictly exceeds the number of iterations and
the fuel-out branch of `replayF` is unreachable from `initNode`. -/
def replay (file : List Nat) (target applied cursor : Nat)
    (calls : List (List Nat)) : Option (Nat × Nat × List (List Nat)) :=
  replayF (target + 1 - applied) file target applied cursor calls

/-- `MasterSlaveImpl::Init` (master_slave.cc:44-88) for a node whose log
file holds `file` and whose checkpoint file `applied.log` holds `ckpt`
(`none` when absent).  `current_offset_` and `sync_offset_` are set to the
log length; the checkpoint (if it yields 4 bytes) seeds `applied_offset_`
and the read cursor, with `assert(applied_offset_ <= sync_offset_)`;
then the redo log is replayed up to `sync_offset_` and
`assert(applied_offset_ == sync_offset_)` must hold.  Failed asserts and
fatal opens are `none`.  The worker starts only on the leader. -/
def initNode (file : List Nat) (ckpt : Option (List Nat)) (leaderRole : Bool)
    (maddr saddr : Nat) : Option NodeState :=
  let cur := file.length
  let applied0 :=
    match ckpt with
    | some bs => if 4 ≤ bs.length then le32dec bs else 0
    | none => 0
  if applied0 ≤ cur then
    match replay file cur applied0 applied0 [] with
    | some (a, cu, calls) =>
      if a = cur then
        some { file := file, current := cur, sync := cur, applied := a,
               cursor := cu, masterOnly := false, isLeader := leaderRole,
               masterAddr := maddr, slaveAddr := saddr,
               workerStarted := leaderRole, callbacks := [], tasks := [],
               fired := [], applyCalls := calls }
      else none
    | none => none
  else none

/-- The two-node system: the node whose leader-side operations we model,
and its standby peer. -/
structure ClusterState where
  leader : NodeState
  slave : NodeState
deriving Repr, DecidableEq

/-- One iteration of the drain loop in `MasterSlaveImpl::ReplicateLog`
(master_slave.cc:237-281): read the entry at the replication cursor, ship
it to the standby with `offset = sync_offset_`, and handle the response.
On rejection with an offset other than `-1`, rewind `sync_offset_` and the
cursor to it (lines 264-268); on rejection with `-1`, loop (state keeps
only the cursor advance done by `ReadEntry`); on success, run
`PorcessCallbck(sync_offset_, len+4, false)`, advance `sync_offset_`, and
leave master-only mode if fully caught up (lines 272-280).  A `ReadEntry`
short of a length prefix is `assert` death (`none`); a corrupt record ends
the pass (line 247-249).  The success branch is split out as `ackLeader`
below. -/
def ackLeader (l : NodeState) (entry : List Nat) (np : Nat) : NodeState :=
  let l1 := porcessCallbck ({ l with cursor := np }) l.sync (entry.length + 4) false
  let l2 := { l1 with sync := l1.sync + (4 + entry.length) }
  if l2.masterOnly && decide (l2.sync = l2.current) then
    { l2 with masterOnly := false }
  else l2

/-- See the comment on `ackLeader`: this is the whole drain-loop iteration
of `MasterSlaveImpl::ReplicateLog` (master_slave.cc:237-281), and
`ackLeader` is its leader-side success branch (lines 272-281): after
`ReadEntry` moved the read cursor to `np`,
`PorcessCallbck(sync_offset_, entry.length()+4, false)` runs, then
`sync_offset_ += 4 + entry.length()`, and if `master_only_` is set and the
node is now fully caught up it leaves master-only mode. -/
def replicateIter (c : ClusterState) : Option ClusterState :=
  let l := c.leader
  match readEntry l.file l.cursor with
  | ReadResult.assertFail => none
  | ReadResult.corrupt => some { c with leader := { l with cursor := l.file.length } }
  | ReadResult.ok entry np =>
    let l0 := { l with cursor := np }
    let sr := appendLog c.slave l.sync entry
    if sr.2.success then
      some { leader := ackLeader l entry np, slave := sr.1 }
    else
      if sr.2.offset ≠ -1 then
        some { leader := { l0 with sync := sr.2.offset.toNat,
                                   cursor := sr.2.offset.toNat },
               slave := sr.1 }
      else
        some { leader := l0, slave := sr.1 }

/-- Whether the next `replicateIter` from `c` would take the
divergence-rewind branch (standby strictly behind the request offset). -/
def isRewind (c : ClusterState) : Bool :=
  match readEntry c.leader.file c.leader.cursor with
  | ReadResult.ok _ _ => decide (c.slave.current < c.leader.sync)
  | _ => false

/-- The state change performed by a delayed `PorcessCallbck(offset, len,
true)` timeout job when it fires: the one-shot job leaves the thread pool's
queue and runs against the shared state. -/
def procTimeoutStep (c : ClusterState) (o l : Nat) : ClusterState :=
  { c with leader :=
      porcessCallbck ({ c.leader with tasks := c.leader.tasks.erase (o, l) }) o l true }

/-- The atomic transitions of the sequential interleaving model.  `rw`
controls whether the divergence-rewind branch of the replicator may be
taken.  The blocking `Log` is split into its locked append prefix
(`logB`) and the two possible outcomes of its wait: `waiterSuccess`
(lines 114-123, guarded by the under-lock recheck `sync_offset_ ==
current_offset_`) and `waiterTimeout` (lines 129-131, which the source
reaches without re-checking the watermarks, hence unguarded).
`drainEnd` is the epilogue of `ReplicateLog` (lines 283-284), reached when
the drain loop exits with `sync_offset_ == current_offset_`.
`procTimeout` is a delayed `PorcessCallbck(offset, len, true)` job firing. -/
inductive Step (rw : Bool) : ClusterState → ClusterState → Prop where
  | logB (c : ClusterState) (entry : List Nat) (h : c.leader.isLeader = true) :
      Step rw c { c with leader := (appendBlocking c.leader entry).1 }
  | waiterSuccess (c : ClusterState) (h : c.leader.sync = c.leader.current) :
      Step rw c { c with leader := { c.leader with masterOnly := false } }
  | waiterTimeout (c : ClusterState) :
      Step rw c { c with leader := { c.leader with masterOnly := true } }
  | logA (c : ClusterState) (entry : List Nat) (s : NodeState)
      (h : logAsync c.leader entry = some s) :
      Step rw c { c with leader := s }
  | replicate (c c' : ClusterState) (hlt : c.leader.sync < c.leader.current)
      (h : replicateIter c = some c') (hrw : isRewind c = true → rw = true) :
      Step rw c c'
  | drainEnd (c : ClusterState) (h : c.leader.sync = c.leader.current) :
      Step rw c { c with leader := { c.leader with applied := c.leader.current } }
  | procTimeout (c : ClusterState) (o l : Nat) (h : (o, l) ∈ c.leader.tasks) :
      Step rw c (procTimeoutStep c o l)

/-- States reachable from a freshly `Init`-ed leader/standby pair through
the operations of the source.  `rw` as in `Step`. -/
inductive Reach (rw : Bool) : ClusterState → Prop where
  | init (lf sf : List Nat) (lc sc : Option (List Nat)) (a b d e : Nat)
      (ln sn : NodeState)
      (hl : initNode lf lc true a b = some ln)
      (hs : initNode sf sc false d e = some sn) :
      Reach rw ⟨ln, sn⟩
  | step (c c' : ClusterState) (hr : Reach rw c) (hs : Step rw c c') : Reach rw c'

/-- The watermark bookkeeping facts that hold in every reachable state of
the leader: `applied`, the replication cursor and `sync` are bounded by
`current`, `sync` never passes the cursor, `current` is the log length,
and every scheduled timeout job is for a fully-appended record. -/
def WatermarkInv (c : ClusterState) : Prop :=
  c.leader.applied ≤ c.leader.current ∧
  c.leader.sync ≤ c.leader.cursor ∧
  c.leader.cursor ≤ c.leader.current ∧
  c.leader.current = c.leader.file.length ∧
  ∀ p ∈ c.leader.tasks, p.1 + p.2 ≤ c.leader.current

end BfsSync

namespace BfsSync

/-! ### Test fixtures used by the witness theorems -/

/-- A freshly started standby node with an empty log. -/
def emptyNode : NodeState :=
  ⟨[], 0, 0, 0, 0, false, false, 1, 2, false, [], [], [], []⟩

/-- A standby node whose log already holds one 1-byte entry (5 bytes). -/
def standbyAt5 : NodeState :=
  ⟨[1, 0, 0, 0, 7], 5, 5, 5, 5, false, false, 1, 2, false, [], [], [], []⟩

/-- A leader with one unreplicated 1-byte entry and the flag set. -/
def leaderBehind : NodeState :=
  ⟨[1, 0, 0, 0, 7], 5, 0, 0, 0, true, true, 1, 2, true, [], [], [], []⟩

/-- A leader with one unreplicated 1-byte entry, flag clear. -/
def leaderClean : NodeState :=
  ⟨[1, 0, 0, 0, 7], 5, 0, 0, 0, false, true, 1, 2, true, [], [], [], []⟩

/-- A leader that believes the standby holds its first entry (sync 5) while
shipping its second, facing a standby that is actually empty. -/
def leaderAhead : NodeState :=
  ⟨[1, 0, 0, 0, 7, 1, 0, 0, 0, 8], 10, 5, 5, 5, false, true, 1, 2, true,
   [], [], [], []⟩

/-- The divergence scenario for the rewind path. -/
def clusterGap : ClusterState := ⟨leaderAhead, emptyNode⟩

/-- The state after the acknowledgement of `leaderBehind`'s only
outstanding entry by `emptyNode`. -/
def ackResult : ClusterState :=
  ⟨{ leaderBehind with sync := 5, cursor := 5, masterOnly := false },
   { emptyNode with file := [1, 0, 0, 0, 7], current := 5, applied := 5,
                    applyCalls := [[7]] }⟩

/-- A freshly initialised leader node with an empty log. -/
def lgNode0 : NodeState :=
  ⟨[], 0, 0, 0, 0, false, true, 1, 2, true, [], [], [], []⟩

/-- A freshly initialised standby node with an empty log. -/
def svNode0 : NodeState :=
  ⟨[], 0, 0, 0, 0, false, false, 3, 4, false, [], [], [], []⟩

/-- A freshly initialised leader/standby pair, both with empty logs. -/
def initialPair : ClusterState := ⟨lgNode0, svNode0⟩

/-- The leader produced by `Init` from the 5-byte log `[1,0,0,0,7]` with a
checkpoint recording offset 5. -/
def c3initLeader : NodeState :=
  ⟨[1, 0, 0, 0, 7], 5, 5, 5, 5, false, true, 1, 2, true, [], [], [], []⟩

/-- The freshly initialised pair of the C3 scenario. -/
def c3init : ClusterState := ⟨c3initLeader, svNode0⟩

/-- The C3 scenario after the blocking append of the entry `[8]`. -/
def c3mid : ClusterState :=
  ⟨⟨[1, 0, 0, 0, 7, 1, 0, 0, 0, 8], 10, 5, 5, 5, false, true, 1, 2, true,
    [], [], [], []⟩, svNode0⟩

/-- The C3 scenario after the empty standby rejected the shipped entry and
the leader rewound `sync_offset_` (and the cursor) to 0. -/
def c3final : ClusterState :=
  ⟨⟨[1, 0, 0, 0, 7, 1, 0, 0, 0, 8], 10, 0, 5, 0, false, true, 1, 2, true,
    [], [], [], []⟩, svNode0⟩

end BfsSync

namespace BfsSync

/-! ### C1: standby acceptance protocol -/

/-- C1: for every call to the standby-side `AppendLog(offset, payload)`:
if `offset > current_offset_` the response is `success=false` with the
standby's `current_offset_` and no state change; if `offset <
current_offset_` the response is `success=false, offset=-1` and no state
change; if they match, the payload is appended length-prefixed, the apply
callback is invoked with the payload, and (given the standby's standing
`applied_offset_ = current_offset_`) both offsets advance by exactly
`4 + len(payload)` with `success=true`. -/
theorem appendLog_protocol (s : NodeState) (o : Nat) (p : List Nat) :
    (s.current < o → appendLog s o p = (s, ⟨false, (s.current : Int)⟩)) ∧
    (o < s.current → appendLog s o p = (s, ⟨false, -1⟩)) ∧
    (o = s.current → s.applied = s.current →
      appendLog s o p =
        ({ s with file := s.file ++ encRecord p,
                  applyCalls := s.applyCalls ++ [p],
                  current := s.current + (p.length + 4),
                  applied := s.applied + (p.length + 4) }, ⟨true, 0⟩)) := by
  refine ⟨fun h => ?_, fun h => ?_, fun h h2 => ?_⟩
  · rw [appendLog, if_pos h]
  · rw [appendLog, if_neg (by omega), if_pos h]
  · subst h
    rw [appendLog, if_neg (by omega), if_neg (by omega), h2]

/-- Witness for C1: all three branches evaluated at concrete states. -/
theorem appendLog_protocol_witness :
    appendLog emptyNode 1 ([9]) = (emptyNode, ⟨false, 0⟩) ∧
    appendLog standbyAt5 3 ([9]) = (standbyAt5, ⟨false, -1⟩) ∧
    appendLog standbyAt5 5 ([9]) =
      ({ standbyAt5 with file := standbyAt5.file ++ encRecord ([9]),
                         applyCalls := [[9]],
                         current := 10, applied := 10 }, ⟨true, 0⟩) :=
  ⟨(appendLog_protocol emptyNode 1 ([9])).1 (by decide),
   (appendLog_protocol standbyAt5 3 ([9])).2.1 (by decide),
   (appendLog_protocol standbyAt5 5 ([9])).2.2 (by decide) (by decide)⟩

end BfsSync

namespace BfsSync

/-! ### C4 and C7: blocking commit behaviour -/

/-- C4: for every entry and timeout, the blocking `Log(entry, timeout_ms)`
returns `true` on every control path (master-only fast path, wait-success,
and timeout, the last of which additionally sets `master_only_`); it never
reports a replication failure to the caller. -/
theorem logBlocking_total (s : NodeState) (entry : List Nat) (caughtUp : Bool)
    (h : s.isLeader = true) :
    Option.map Prod.snd (logBlocking s entry caughtUp) = some true ∧
    (¬(s.masterOnly = true ∧ s.sync < s.current) →
      ∃ s', logBlocking s entry false = some (s', true) ∧ s'.masterOnly = true) := by
  constructor
  · rw [logBlocking, if_pos h]
    by_cases hf : (appendBlocking s entry).2
    · rw [if_pos hf]; rfl
    · rw [if_neg hf]
      cases caughtUp <;> simp
  · intro hno
    have hf : (appendBlocking s entry).2 = false := by
      rcases Bool.eq_false_or_eq_true s.masterOnly with hm | hm
      · have hns : ¬s.sync < s.current := fun hlt => hno ⟨hm, hlt⟩
        simp [appendBlocking, hm, hns]
      · simp [appendBlocking, hm]
    refine ⟨{ (appendBlocking s entry).1 with masterOnly := true }, ?_, rfl⟩
    simp [logBlocking, h, hf]

/-- Witness for C4 at a concrete leader state. -/
theorem logBlocking_total_witness :
    Option.map Prod.snd (logBlocking leaderClean ([9]) true) = some true ∧
    (¬(leaderClean.masterOnly = true ∧ leaderClean.sync < leaderClean.current) →
      ∃ s', logBlocking leaderClean ([9]) false = some (s', true) ∧
        s'.masterOnly = true) :=
  logBlocking_total leaderClean ([9]) true (by decide)

/-- C7: a blocking `Log` call made while `master_only_` is set and
`sync_offset_` is strictly below the new entry's starting offset (the
pre-append `current_offset_`) returns `true` immediately — the result does
not depend on the wait oracle — and forces `applied_offset_` up to the new
`current_offset_`. -/
theorem logBlocking_masterOnly_fastpath (s : NodeState) (entry : List Nat)
    (caughtUp : Bool) (hl : s.isLeader = true) (hm : s.masterOnly = true)
    (hs : s.sync < s.current) :
    logBlocking s entry caughtUp =
      some ({ s with file := s.file ++ encRecord entry,
                     current := s.current + (entry.length + 4),
                     applied := s.current + (entry.length + 4) }, true) := by
  have hfast : appendBlocking s entry =
      ({ s with file := s.file ++ encRecord entry,
                current := s.current + (entry.length + 4),
                applied := s.current + (entry.length + 4) }, true) := by
    rw [appendBlocking]
    simp only [hm, hs]
    simp
  rw [logBlocking, if_pos hl, hfast]
  simp

/-- Witness for C7: the degraded leader answers instantly for both values
of the wait oracle. -/
theorem logBlocking_masterOnly_fastpath_witness :
    logBlocking leaderBehind ([9]) false =
      some ({ leaderBehind with file := leaderBehind.file ++ encRecord ([9]),
                                current := 10, applied := 10 }, true) ∧
    logBlocking leaderBehind ([9]) true =
      some ({ leaderBehind with file := leaderBehind.file ++ encRecord ([9]),
                                current := 10, applied := 10 }, true) :=
  ⟨logBlocking_masterOnly_fastpath leaderBehind ([9]) false (by decide) (by decide)
     (by decide),
   logBlocking_masterOnly_fastpath leaderBehind ([9]) true (by decide) (by decide)
     (by decide)⟩

/-! ### C9: promotion -/

/-- C9: `SwitchToLeader` sets `is_leader_`, resets `sync_offset_` to 0,
rewinds the replication read cursor to the start of the log, swaps the
master/slave addresses and starts the background replicator;
`current_offset_` and `applied_offset_` are untouched. -/
theorem switchToLeader_promotion (s : NodeState) :
    switchToLeader s =
      { s with isLeader := true, sync := 0, cursor := 0,
               masterAddr := s.slaveAddr, slaveAddr := s.masterAddr,
               workerStarted := true } ∧
    (switchToLeader s).current = s.current ∧
    (switchToLeader s).applied = s.applied :=
  ⟨rfl, rfl, rfl⟩

end BfsSync

namespace BfsSync

/-! ### C10: checkpoint beyond the log aborts Init -/

/-- C10: if the checkpoint file yields 4 bytes whose stored offset is
strictly greater than the log length, `Init` fails the assertion
`applied_offset_ <= sync_offset_` and aborts (`none`); the stored offset
is neither clamped nor treated as an absent checkpoint. -/
theorem init_checkpoint_beyond_log_aborts (file bs : List Nat)
    (leaderRole : Bool) (ma sa : Nat) (h4 : 4 ≤ bs.length)
    (hgt : file.length < le32dec bs) :
    initNode file (some bs) leaderRole ma sa = none := by
  have hlt : ¬((if 4 ≤ bs.length then le32dec bs else 0) ≤ file.length) := by
    rw [if_pos h4]; omega
  simp [initNode, hlt]

/-- Witness for C10: a checkpoint recording offset 9 against a 5-byte log. -/
theorem init_checkpoint_beyond_log_aborts_witness :
    initNode ([1, 0, 0, 0, 7]) (some ([9, 0, 0, 0])) true 1 2 = none :=
  init_checkpoint_beyond_log_aborts ([1, 0, 0, 0, 7]) ([9, 0, 0, 0]) true 1 2
    (by decide) (by decide)

/-! ### C6: pending callbacks are consumed exactly once -/

/-- C6: `PorcessCallbck` consumes a pending callback exactly once.  The
first run at a registered offset fires the callback (appending one
invocation to the trace) and removes the offset from the table; a later
run at the same offset — from either the replicator-acknowledgement path
or the delayed timeout check, with any `len` — finds no pending callback,
fires nothing and leaves the table unchanged. -/
theorem porcessCallbck_once (s : NodeState) (o l l2 : Nat) (tc tc2 : Bool)
    (hmem : o ∈ s.callbacks) (hnd : s.callbacks.Nodup) :
    (porcessCallbck s o l tc).fired = s.fired ++ [(o, true)] ∧
    o ∉ (porcessCallbck s o l tc).callbacks ∧
    (porcessCallbck (porcessCallbck s o l tc) o l2 tc2).fired =
      (porcessCallbck s o l tc).fired ∧
    (porcessCallbck (porcessCallbck s o l tc) o l2 tc2).callbacks =
      (porcessCallbck s o l tc).callbacks := by
  have hcb : (porcessCallbck s o l tc).callbacks = s.callbacks.erase o := by
    rw [porcessCallbck, if_pos hmem]
  have hfired : (porcessCallbck s o l tc).fired = s.fired ++ [(o, true)] := by
    rw [porcessCallbck, if_pos hmem]
  have hout : o ∉ (porcessCallbck s o l tc).callbacks := by
    rw [hcb]; exact hnd.not_mem_erase
  have hsecond : ∀ t : NodeState, o ∉ t.callbacks →
      (porcessCallbck t o l2 tc2).fired = t.fired ∧
      (porcessCallbck t o l2 tc2).callbacks = t.callbacks := by
    intro t hno
    rw [porcessCallbck, if_neg hno]
    exact ⟨rfl, rfl⟩
  exact ⟨hfired, hout, (hsecond _ hout).1, (hsecond _ hout).2⟩

/-- Witness for C6 at a concrete state with one registered callback. -/
theorem porcessCallbck_once_witness :
    (porcessCallbck ({ leaderClean with callbacks := [0], tasks := [(0, 5)] }) 0 5 false).fired =
      [(0, true)] ∧
    (0 : Nat) ∉ (porcessCallbck ({ leaderClean with callbacks := [0], tasks := [(0, 5)] }) 0 5 false).callbacks ∧
    (porcessCallbck (porcessCallbck ({ leaderClean with callbacks := [0], tasks := [(0, 5)] }) 0 5 false) 0 5 true).fired =
      (porcessCallbck ({ leaderClean with callbacks := [0], tasks := [(0, 5)] }) 0 5 false).fired ∧
    (porcessCallbck (porcessCallbck ({ leaderClean with callbacks := [0], tasks := [(0, 5)] }) 0 5 false) 0 5 true).callbacks =
      (porcessCallbck ({ leaderClean with callbacks := [0], tasks := [(0, 5)] }) 0 5 false).callbacks :=
  porcessCallbck_once ({ leaderClean with callbacks := [0], tasks := [(0, 5)] })
    0 5 5 false true (by decide) (by decide)

/-! ### C8: divergence rewind -/

/-- C8: when the standby explicitly rejects an `AppendLog` with a response
offset other than `-1` (the gap case, where the response carries the
standby's `current_offset_`), the replicator sets `sync_offset_` to exactly
that offset, repositions the replication read cursor to it, and continues
the drain loop from there with the standby untouched. -/
theorem replicate_rewind (c : ClusterState) (entry : List Nat) (np : Nat)
    (hre : readEntry c.leader.file c.leader.cursor = ReadResult.ok entry np)
    (hgap : c.slave.current < c.leader.sync) :
    (appendLog c.slave c.leader.sync entry).2 = ⟨false, (c.slave.current : Int)⟩ ∧
    replicateIter c =
      some ⟨{ c.leader with sync := c.slave.current, cursor := c.slave.current },
            c.slave⟩ := by
  have hresp : appendLog c.slave c.leader.sync entry =
      (c.slave, ⟨false, (c.slave.current : Int)⟩) := by
    rw [appendLog, if_pos hgap]
  refine ⟨by rw [hresp], ?_⟩
  have hne : ((c.slave.current : Int) ≠ -1) := by
    have := Int.natCast_nonneg c.slave.current
    omega
  rw [replicateIter, hre]
  simp only [hresp, hne]
  simp [Int.toNat_natCast]

/-- Witness for C8: a leader at sync 5 facing an empty standby rewinds to 0. -/
theorem replicate_rewind_witness :
    (appendLog clusterGap.slave clusterGap.leader.sync ([8])).2 = ⟨false, 0⟩ ∧
    replicateIter clusterGap =
      some ⟨{ clusterGap.leader with sync := 0, cursor := 0 }, clusterGap.slave⟩ :=
  replicate_rewind clusterGap ([8]) 10 (by decide) (by decide)

end BfsSync

namespace BfsSync

/-! ### Shared facts about the operations -/

/-- A length-prefixed record occupies `4 + len(payload)` bytes on disk. -/
theorem encRecord_length (e : List Nat) :
    (encRecord e).length = 4 + e.length := by
  simp [encRecord, le32enc]
  omega

/-- `ReadEntry` succeeding means the record fits: the new position is the
start plus the on-disk size `4 + payload length`, within the file. -/
theorem readEntry_ok_bounds (file : List Nat) (pos : Nat) (e : List Nat)
    (np : Nat) (h : readEntry file pos = ReadResult.ok e np) :
    np = pos + (4 + e.length) ∧ np ≤ file.length ∧ pos + 4 ≤ file.length := by
  rw [readEntry] at h
  by_cases h4 : pos + 4 ≤ file.length
  · rw [if_pos h4] at h
    by_cases hl : pos + 4 + le32dec (file.drop pos) ≤ file.length
    · rw [if_pos hl] at h
      injection h with h1 h2
      subst h2
      have hlen : e.length = le32dec (file.drop pos) := by
        rw [← h1]
        simp [List.length_take, List.length_drop]
        omega
      omega
    · rw [if_neg hl] at h; exact absurd h (by simp)
  · rw [if_neg h4] at h; exact absurd h (by simp)

/-- Gap branch of the standby handler. -/
theorem appendLog_gap (s : NodeState) (o : Nat) (p : List Nat)
    (h : s.current < o) : appendLog s o p = (s, ⟨false, (s.current : Int)⟩) := by
  rw [appendLog, if_pos h]

/-- Stale branch of the standby handler. -/
theorem appendLog_stale (s : NodeState) (o : Nat) (p : List Nat)
    (h : o < s.current) : appendLog s o p = (s, ⟨false, -1⟩) := by
  rw [appendLog, if_neg (by omega), if_pos h]

/-- Accept branch of the standby handler. -/
theorem appendLog_accept (s : NodeState) (o : Nat) (p : List Nat)
    (h : o = s.current) :
    appendLog s o p =
      ({ s with file := s.file ++ encRecord p,
                applyCalls := s.applyCalls ++ [p],
                current := s.current + (p.length + 4),
                applied := s.current + (p.length + 4) }, ⟨true, 0⟩) := by
  subst h
  rw [appendLog, if_neg (by omega), if_neg (by omega)]

/-- `PorcessCallbck` only touches the callback table, the fired trace,
`applied_offset_` and `master_only_`. -/
theorem porcessCallbck_proj (s : NodeState) (o l : Nat) (tc : Bool) :
    (porcessCallbck s o l tc).sync = s.sync ∧
    (porcessCallbck s o l tc).cursor = s.cursor ∧
    (porcessCallbck s o l tc).current = s.current ∧
    (porcessCallbck s o l tc).file = s.file ∧
    (porcessCallbck s o l tc).tasks = s.tasks ∧
    (porcessCallbck s o l tc).isLeader = s.isLeader := by
  rw [porcessCallbck]
  split <;> exact ⟨rfl, rfl, rfl, rfl, rfl, rfl⟩

/-- On the replicator-acknowledgement path (`timeout_check == false`),
`PorcessCallbck` never changes `master_only_`: line 317 is guarded by
`timeout_check` and line 323 assigns `true` under a guard requiring the
flag to already be `true`. -/
theorem porcessCallbck_ack_masterOnly (s : NodeState) (o l : Nat) :
    (porcessCallbck s o l false).masterOnly = s.masterOnly := by
  rw [porcessCallbck]
  split <;> cases hm : s.masterOnly <;> simp [hm]

/-- `PorcessCallbck` never moves `applied_offset_` past
`max applied (offset + len)`. -/
theorem porcessCallbck_applied_le (s : NodeState) (o l : Nat) (tc : Bool) :
    (porcessCallbck s o l tc).applied ≤ max s.applied (o + l) := by
  rw [porcessCallbck]
  split
  · simp only
    split <;> omega
  · simp only
    omega

/-- If `PorcessCallbck` ran as a timeout check and the flag is clear
afterwards, the call was a no-op (no pending callback, flag already
clear). -/
theorem porcessCallbck_timeout_flagFalse (s : NodeState) (o l : Nat)
    (h : (porcessCallbck s o l true).masterOnly = false) :
    porcessCallbck s o l true = s ∧ s.masterOnly = false := by
  by_cases hmem : o ∈ s.callbacks
  · rw [porcessCallbck, if_pos hmem] at h
    cases hm : s.masterOnly <;> simp [hm] at h
  · have hm : s.masterOnly = false := by
      rw [porcessCallbck, if_neg hmem] at h
      cases hm : s.masterOnly
      · rfl
      · simp [hm] at h
    refine ⟨?_, hm⟩
    rw [porcessCallbck, if_neg hmem]
    have hcond : (s.masterOnly && decide (o + l = s.current)) = false := by
      simp [hm]
    rw [hcond]
    rfl

/-- Field view of the locked prefix of the blocking `Log`. -/
theorem appendBlocking_proj (s : NodeState) (e : List Nat) :
    ((appendBlocking s e).1).sync = s.sync ∧
    ((appendBlocking s e).1).current = s.current + (e.length + 4) ∧
    ((appendBlocking s e).1).cursor = s.cursor ∧
    ((appendBlocking s e).1).file = s.file ++ encRecord e ∧
    ((appendBlocking s e).1).tasks = s.tasks ∧
    ((appendBlocking s e).1).masterOnly = s.masterOnly ∧
    (((appendBlocking s e).1).applied = s.applied ∨
      ((appendBlocking s e).1).applied = s.current + (e.length + 4)) ∧
    (s.masterOnly = false → ((appendBlocking s e).1).applied = s.applied) := by
  rw [appendBlocking]
  split
  · refine ⟨rfl, rfl, rfl, rfl, rfl, rfl, Or.inr rfl, fun hm => ?_⟩
    rename_i hcond
    rw [hm] at hcond
    simp at hcond
  · exact ⟨rfl, rfl, rfl, rfl, rfl, rfl, Or.inl rfl, fun _ => rfl⟩

/-- Field view of the asynchronous `Log`. -/
theorem logAsync_proj (s s' : NodeState) (e : List Nat)
    (h : logAsync s e = some s') :
    s'.sync = s.sync ∧
    s'.current = s.current + (e.length + 4) ∧
    s'.cursor = s.cursor ∧
    s'.file = s.file ++ encRecord e ∧
    s'.masterOnly = s.masterOnly ∧
    (s'.applied = s.applied ∨ s'.applied = s.current) ∧
    (∀ q ∈ s'.tasks, q ∈ s.tasks ∨ q = (s.current, e.length + 4)) ∧
    (s.masterOnly = false → s'.applied = s.applied) := by
  rcases Bool.eq_false_or_eq_true s.isLeader with hL | hL
  · rw [logAsync, if_pos hL] at h
    by_cases hb : (s.masterOnly && decide (s.sync < s.current)) = true
    · simp only [hb, if_true] at h
      injection h with h
      subst h
      refine ⟨rfl, rfl, rfl, rfl, rfl, Or.inr rfl, fun q hq => Or.inl hq, fun hm => ?_⟩
      rw [hm] at hb
      simp at hb
    · simp only [hb, if_false] at h
      injection h with h
      subst h
      refine ⟨rfl, rfl, rfl, rfl, rfl, Or.inl rfl, fun q hq => ?_, fun _ => rfl⟩
      rcases List.mem_append.mp hq with hq | hq
      · exact Or.inl hq
      · exact Or.inr (List.mem_singleton.mp hq)
  · rw [logAsync, if_neg (by simp [hL])] at h
    exact absurd h (by simp)

/-- Exhaustive description of one drain-loop iteration that did not die on
`assert`: corrupt read, divergence rewind, stale rejection, or success. -/
theorem replicateIter_cases (c c' : ClusterState)
    (h : replicateIter c = some c') :
    (readEntry c.leader.file c.leader.cursor = ReadResult.corrupt ∧
      c' = { c with leader := { c.leader with cursor := c.leader.file.length } }) ∨
    (∃ e np, readEntry c.leader.file c.leader.cursor = ReadResult.ok e np ∧
      ((c.slave.current < c.leader.sync ∧
         c' = ⟨{ c.leader with sync := c.slave.current,
                               cursor := c.slave.current }, c.slave⟩) ∨
       (c.leader.sync < c.slave.current ∧
         c' = ⟨{ c.leader with cursor := np }, c.slave⟩) ∨
       (c.leader.sync = c.slave.current ∧
         c' = ⟨ackLeader c.leader e np,
               (appendLog c.slave c.leader.sync e).1⟩))) := by
  rw [replicateIter] at h
  cases hre : readEntry c.leader.file c.leader.cursor with
  | assertFail => rw [hre] at h; exact absurd h (by simp)
  | corrupt =>
    rw [hre] at h
    dsimp only at h
    injection h with h
    exact Or.inl ⟨rfl, h.symm⟩
  | ok e np =>
    rw [hre] at h
    dsimp only at h
    refine Or.inr ⟨e, np, rfl, ?_⟩
    rcases Nat.lt_trichotomy c.slave.current c.leader.sync with hlt | heq | hgt
    · rw [appendLog_gap _ _ _ hlt] at h
      dsimp only at h
      have hne : ((c.slave.current : Int) ≠ -1) := by
        have := Int.natCast_nonneg c.slave.current
        omega
      rw [if_neg Bool.false_ne_true, if_pos hne] at h
      simp only [Int.toNat_natCast] at h
      refine Or.inl ⟨hlt, ?_⟩
      injection h with h
      exact h.symm
    · rw [appendLog_accept _ _ _ heq.symm] at h
      dsimp only at h
      rw [if_pos rfl] at h
      injection h with h
      refine Or.inr (Or.inr ⟨heq.symm, ?_⟩)
      rw [appendLog_accept _ _ _ heq.symm]
      exact h.symm
    · rw [appendLog_stale _ _ _ hgt] at h
      dsimp only at h
      rw [if_neg Bool.false_ne_true, if_neg (by simp)] at h
      refine Or.inr (Or.inl ⟨hgt, ?_⟩)
      injection h with h
      exact h.symm

end BfsSync

namespace BfsSync

/-- Projections of the leave-master-only check at the end of the drain
iteration (lines 277-280): it only ever touches the flag. -/
theorem leaveMO_proj (t : NodeState) :
    (if t.masterOnly && decide (t.sync = t.current) then
        { t with masterOnly := false } else t).sync = t.sync ∧
    (if t.masterOnly && decide (t.sync = t.current) then
        { t with masterOnly := false } else t).current = t.current ∧
    (if t.masterOnly && decide (t.sync = t.current) then
        { t with masterOnly := false } else t).cursor = t.cursor ∧
    (if t.masterOnly && decide (t.sync = t.current) then
        { t with masterOnly := false } else t).applied = t.applied ∧
    (if t.masterOnly && decide (t.sync = t.current) then
        { t with masterOnly := false } else t).file = t.file ∧
    (if t.masterOnly && decide (t.sync = t.current) then
        { t with masterOnly := false } else t).tasks = t.tasks := by
  split <;> exact ⟨rfl, rfl, rfl, rfl, rfl, rfl⟩

/-- The leave-master-only check clears the flag whenever the node is
caught up. -/
theorem leaveMO_catchup (t : NodeState) (h : t.sync = t.current) :
    (if t.masterOnly && decide (t.sync = t.current) then
        { t with masterOnly := false } else t).masterOnly = false := by
  cases hM : t.masterOnly
  · rw [if_neg (by simp [hM])]
    exact hM
  · rw [if_pos (by simp [hM, h])]

/-- If the flag is clear after the leave-master-only check, it either was
already clear or the node had just caught up. -/
theorem leaveMO_flagFalse (t : NodeState)
    (h : (if t.masterOnly && decide (t.sync = t.current) then
            { t with masterOnly := false } else t).masterOnly = false) :
    t.masterOnly = false ∨ t.sync = t.current := by
  by_cases hc : (t.masterOnly && decide (t.sync = t.current)) = true
  · exact Or.inr (of_decide_eq_true (Bool.and_elim_right hc))
  · rw [if_neg hc] at h
    exact Or.inl h

/-- Field view of the successful-acknowledgement step of the drain loop. -/
theorem ackLeader_spec (l : NodeState) (e : List Nat) (np : Nat) :
    (ackLeader l e np).sync = l.sync + (4 + e.length) ∧
    (ackLeader l e np).current = l.current ∧
    (ackLeader l e np).cursor = np ∧
    (ackLeader l e np).file = l.file ∧
    (ackLeader l e np).tasks = l.tasks ∧
    (ackLeader l e np).applied ≤ max l.applied (l.sync + (4 + e.length)) ∧
    ((ackLeader l e np).sync = (ackLeader l e np).current →
      (ackLeader l e np).masterOnly = false) ∧
    ((ackLeader l e np).masterOnly = false →
      l.masterOnly = false ∨ (ackLeader l e np).sync = (ackLeader l e np).current) := by
  obtain ⟨p1, p2, p3, p4, p5, p6⟩ :=
    porcessCallbck_proj ({ l with cursor := np }) l.sync (e.length + 4) false
  have pm := porcessCallbck_ack_masterOnly ({ l with cursor := np }) l.sync (e.length + 4)
  have pa := porcessCallbck_applied_le ({ l with cursor := np }) l.sync (e.length + 4) false
  rw [ackLeader]
  set P := porcessCallbck ({ l with cursor := np }) l.sync (e.length + 4) false with hP
  dsimp only
  obtain ⟨q1, q2, q3, q4, q5, q6⟩ :=
    leaveMO_proj ({ P with sync := P.sync + (4 + e.length) })
  refine ⟨?_, ?_, ?_, ?_, ?_, ?_, ?_, ?_⟩
  · rw [q1]; dsimp only; rw [p1]
  · rw [q2]; dsimp only; rw [p3]
  · rw [q3]; dsimp only; rw [p2]
  · rw [q5]; dsimp only; rw [p4]
  · rw [q6]; dsimp only; rw [p5]
  · rw [q4]; dsimp only
    have : P.sync = l.sync := p1
    calc P.applied ≤ max ({ l with cursor := np }).applied (l.sync + (e.length + 4)) := pa
    _ ≤ max l.applied (l.sync + (4 + e.length)) := by
        dsimp only
        omega
  · intro hc
    rw [q1, q2] at hc
    exact leaveMO_catchup _ hc
  · intro hf
    rcases leaveMO_flagFalse ({ P with sync := P.sync + (4 + e.length) })
        (by exact hf) with hfl | hcu
    · dsimp only at hfl
      rw [hP] at hfl
      rw [pm] at hfl
      exact Or.inl hfl
    · right
      rw [q1, q2]
      exact hcu

/-! ### C2: catching up clears the degraded-mode flag -/

/-- C2: along any atomic transition of the model from a state satisfying
the watermark bookkeeping facts, if `sync_offset_` was not equal to
`current_offset_` before the step and equals it afterwards (the standby
caught up in this step — in particular the successful replication
acknowledgement of the last outstanding entry, master_slave.cc:272-280),
then the degraded-mode flag is clear after the step: the flag is never
left set by the step that makes the standby fully caught up. -/
theorem step_catchup_clears_masterOnly (b : Bool) (c c' : ClusterState)
    (hstep : Step b c c') (hinv : WatermarkInv c)
    (hne : c.leader.sync ≠ c.leader.current)
    (heq : c'.leader.sync = c'.leader.current) :
    c'.leader.masterOnly = false := by
  obtain ⟨hac, hsc, hcc, hcf, hts⟩ := hinv
  cases hstep with
  | logB entry h =>
    exfalso
    obtain ⟨h1, h2, -, -, -, -, -, -⟩ := appendBlocking_proj c.leader entry
    dsimp only at heq
    rw [h1, h2] at heq
    omega
  | waiterSuccess h => rfl
  | waiterTimeout =>
    exfalso
    dsimp only at heq
    exact hne heq
  | logA entry s hA =>
    exfalso
    obtain ⟨h1, h2, -, -, -, -, -, -⟩ := logAsync_proj c.leader s entry hA
    dsimp only at heq
    rw [h1, h2] at heq
    omega
  | drainEnd h =>
    exfalso
    dsimp only at heq
    exact hne heq
  | procTimeout o l hmem =>
    exfalso
    obtain ⟨p1, -, p3, -, -, -⟩ :=
      porcessCallbck_proj ({ c.leader with tasks := c.leader.tasks.erase (o, l) }) o l true
    rw [procTimeoutStep] at heq
    dsimp only at heq
    rw [p1, p3] at heq
    exact hne heq
  | replicate x hlt hiter hrw =>
    rcases replicateIter_cases _ _ hiter with ⟨hcorr, rfl⟩ | ⟨e, np, hre, hcase⟩
    · exfalso
      dsimp only at heq
      exact hne heq
    · rcases hcase with ⟨hgap, rfl⟩ | ⟨hstale, rfl⟩ | ⟨hacc, rfl⟩
      · exfalso
        dsimp only at heq
        omega
      · exfalso
        dsimp only at heq
        exact hne heq
      · dsimp only at heq ⊢
        exact (ackLeader_spec c.leader e np).2.2.2.2.2.2.1 heq

/-- Witness for C2: the replication acknowledgement of the only
outstanding entry catches the standby up and clears the flag. -/
theorem step_catchup_clears_masterOnly_witness :
    replicateIter ⟨leaderBehind, emptyNode⟩ = some ackResult ∧
    ackResult.leader.masterOnly = false :=
  ⟨by decide,
   step_catchup_clears_masterOnly true ⟨leaderBehind, emptyNode⟩ ackResult
     (Step.replicate ⟨leaderBehind, emptyNode⟩ ackResult (by decide) (by decide)
       (fun hr => rfl))
     ⟨by decide, by decide, by decide, by decide, by decide⟩
     (by decide) (by decide)⟩

end BfsSync

namespace BfsSync

/-! ### C5: partial-write corruption handling -/

/-- Counterexample for C5.  The claim states that on reading a partial
record (4-byte length prefix, short payload) the process does not abort
in either the replicator's drain loop or the `Init` startup replay.  But
`Init`'s replay loop hits `assert(0)` (master_slave.cc:74-76) when
`ReadEntry` returns false: on the 6-byte log `[5,0,0,0,1,2]` (prefix
announces a 5-byte payload, only 2 bytes present) with no checkpoint,
`Init` aborts — modelled as `none`. -/
theorem init_corrupt_aborts_counterexample :
    initNode ([5, 0, 0, 0, 1, 2]) none false 1 2 = none := by decide

/-- C5 as amended: on a partial record, the replicator's drain-loop
iteration ends the pass without abort and without advancing any watermark
(only the file cursor is left at end-of-file, consuming the partial bytes
as the failed `read` does); the `Init` startup replay instead fails its
assertion and aborts when the replay region up to `sync_offset_` contains
a partial record. -/
theorem corrupt_record_handling :
    (∀ c : ClusterState,
      readEntry c.leader.file c.leader.cursor = ReadResult.corrupt →
        replicateIter c =
          some { c with leader := { c.leader with cursor := c.leader.file.length } }) ∧
    (∀ (file : List Nat) (leaderRole : Bool) (ma sa : Nat),
      readEntry file 0 = ReadResult.corrupt → 0 < file.length →
        initNode file none leaderRole ma sa = none) := by
  constructor
  · intro c hre
    rw [replicateIter, hre]
  · intro file leaderRole ma sa hre hpos
    have hfuel : ∀ fuel, replayF (fuel + 1) file file.length 0 0 [] = none := by
      intro fuel
      rw [replayF, if_pos hpos, hre]
    have hrep : replay file file.length 0 0 [] = none := by
      rw [replay]
      simpa using hfuel file.length
    rw [initNode]
    simp only [Nat.zero_le, if_true, hrep]

/-- Witness for the amended C5: the 6-byte log `[5,0,0,0,1,2]` holds one
partial record; a replicator pass over it ends without progress, and
`Init` on it aborts. -/
theorem corrupt_record_handling_witness :
    replicateIter ⟨{ leaderClean with file := [5, 0, 0, 0, 1, 2], current := 6 },
                   emptyNode⟩ =
      some ⟨{ leaderClean with file := [5, 0, 0, 0, 1, 2], current := 6,
                               cursor := 6 }, emptyNode⟩ ∧
    initNode ([5, 0, 0, 0, 1, 2]) none true 1 2 = none :=
  ⟨(corrupt_record_handling).1
     ⟨{ leaderClean with file := [5, 0, 0, 0, 1, 2], current := 6 }, emptyNode⟩
     (by decide),
   (corrupt_record_handling).2 ([5, 0, 0, 0, 1, 2]) true 1 2 (by decide) (by decide)⟩

end BfsSync

namespace BfsSync

/-- The replay loop keeps `applied_offset_` and the read cursor in
lockstep: both advance by the on-disk size of each record. -/
theorem replayF_cursor (fuel : Nat) :
    ∀ (f : List Nat) (t a cu : Nat) (calls : List (List Nat))
      (a' cu' : Nat) (calls' : List (List Nat)),
      replayF fuel f t a cu calls = some (a', cu', calls') → a = cu →
        a' = cu' := by
  induction fuel with
  | zero =>
    intro f t a cu calls a' cu' calls' h hac
    rw [replayF] at h
    exact absurd h (by simp)
  | succ fuel ih =>
    intro f t a cu calls a' cu' calls' h hac
    rw [replayF] at h
    by_cases hlt : a < t
    · rw [if_pos hlt] at h
      cases hre : readEntry f cu with
      | ok e np =>
        rw [hre] at h
        have hb := readEntry_ok_bounds f cu e np hre
        exact ih f t _ np _ a' cu' calls' h (by omega)
      | corrupt => rw [hre] at h; exact absurd h (by simp)
      | assertFail => rw [hre] at h; exact absurd h (by simp)
    · rw [if_neg hlt] at h
      injection h with h
      injection h with h1 h2
      injection h2 with h2 h3
      subst h1; subst h2
      exact hac

/-- A successfully `Init`-ed node starts with all three watermarks and the
read cursor at the end of its log, the flag clear, and no pending work. -/
theorem initNode_spec (f : List Nat) (ck : Option (List Nat)) (il : Bool)
    (ma sa : Nat) (n : NodeState) (h : initNode f ck il ma sa = some n) :
    n.applied = n.sync ∧ n.sync = n.current ∧ n.cursor = n.sync ∧
    n.current = f.length ∧ n.tasks = [] ∧ n.masterOnly = false ∧
    n.file = f := by
  rw [initNode.eq_def] at h
  dsimp only at h
  set a0 := (match ck with
    | some bs => if 4 ≤ bs.length then le32dec bs else 0
    | none => 0) with ha0
  by_cases hle : a0 ≤ f.length
  · rw [if_pos hle] at h
    cases hr : replay f f.length a0 a0 [] with
    | none => rw [hr] at h; exact absurd h (by simp)
    | some r =>
      obtain ⟨a, cu, calls⟩ := r
      rw [hr] at h
      dsimp only at h
      by_cases heq : a = f.length
      · rw [if_pos heq] at h
        injection h with h
        subst h
        have hcu : a = cu := replayF_cursor _ f f.length a0 a0 [] a cu calls hr rfl
        exact ⟨by dsimp; omega, rfl, by dsimp; omega, rfl, rfl, rfl, rfl⟩
      · rw [if_neg heq] at h
        exact absurd h (by simp)
  · rw [if_neg hle] at h
    exact absurd h (by simp)

/-- Every atomic transition preserves the watermark bookkeeping facts. -/
theorem stepWatermarkInv (b : Bool) (c c' : ClusterState)
    (hstep : Step b c c') (hinv : WatermarkInv c) : WatermarkInv c' := by
  obtain ⟨hac, hsc, hcc, hcf, hts⟩ := hinv
  cases hstep with
  | logB entry h =>
    obtain ⟨p1, p2, p3, p4, p5, p6, p7, p8⟩ := appendBlocking_proj c.leader entry
    refine ⟨?_, ?_, ?_, ?_, ?_⟩ <;> dsimp only
    · rw [p2]; rcases p7 with hh | hh <;> rw [hh] <;> omega
    · rw [p1, p3]; exact hsc
    · rw [p3, p2]; omega
    · rw [p2, p4, List.length_append, encRecord_length]
      omega
    · rw [p5, p2]
      intro p hp
      have := hts p hp
      omega
  | waiterSuccess h =>
    exact ⟨hac, hsc, hcc, hcf, hts⟩
  | waiterTimeout =>
    exact ⟨hac, hsc, hcc, hcf, hts⟩
  | logA entry s hA =>
    obtain ⟨p1, p2, p3, p4, p5, p6, p7, p8⟩ := logAsync_proj c.leader s entry hA
    refine ⟨?_, ?_, ?_, ?_, ?_⟩ <;> dsimp only
    · rw [p2]; rcases p6 with hh | hh <;> rw [hh] <;> omega
    · rw [p1, p3]; exact hsc
    · rw [p3, p2]; omega
    · rw [p2, p4, List.length_append, encRecord_length]
      omega
    · rw [p2]
      intro p hp
      rcases p7 p hp with hh | hh
      · have := hts p hh
        omega
      · rw [hh]
  | drainEnd h =>
    exact ⟨le_refl _, hsc, hcc, hcf, hts⟩
  | procTimeout o l hmem =>
    rw [procTimeoutStep]
    obtain ⟨p1, p2, p3, p4, p5, p6⟩ :=
      porcessCallbck_proj ({ c.leader with tasks := c.leader.tasks.erase (o, l) }) o l true
    have pa :=
      porcessCallbck_applied_le ({ c.leader with tasks := c.leader.tasks.erase (o, l) }) o l true
    have hol : o + l ≤ c.leader.current := hts (o, l) hmem
    refine ⟨?_, ?_, ?_, ?_, ?_⟩ <;> dsimp only
    · rw [p3]
      dsimp only at pa ⊢
      omega
    · rw [p1, p2]
      dsimp only
      exact hsc
    · rw [p2, p3]
      dsimp only
      exact hcc
    · rw [p3, p4]
      dsimp only
      exact hcf
    · rw [p5, p3]
      dsimp only
      intro p hp
      exact hts p (List.mem_of_mem_erase hp)
  | replicate x hlt hiter hrw =>
    rcases replicateIter_cases _ _ hiter with ⟨hcorr, rfl⟩ | ⟨e, np, hre, hcase⟩
    · exact ⟨by dsimp only; omega, by dsimp only; omega, by dsimp only; omega,
        by dsimp only; omega, by dsimp only; exact fun p hp => by have := hts p hp; omega⟩
    · obtain ⟨hb1, hb2, hb3⟩ := readEntry_ok_bounds _ _ _ _ hre
      rcases hcase with ⟨hgap, rfl⟩ | ⟨hstale, rfl⟩ | ⟨hacc, rfl⟩
      · refine ⟨hac, le_refl _, by dsimp only; omega, hcf, ?_⟩
        dsimp only
        exact hts
      · refine ⟨hac, by dsimp only; omega, by dsimp only; omega, hcf, ?_⟩
        dsimp only
        exact hts
      · obtain ⟨a1, a2, a3, a4, a5, a6, a7, a8⟩ := ackLeader_spec c.leader e np
        refine ⟨?_, ?_, ?_, ?_, ?_⟩ <;> dsimp only
        · rw [a2]; omega
        · rw [a1, a3]; omega
        · rw [a3, a2]; omega
        · rw [a2, a4]; exact hcf
        · rw [a5, a2]; exact hts

/-- The watermark bookkeeping facts hold in every reachable state. -/
theorem reachWatermarkInv (b : Bool) (c : ClusterState) (h : Reach b c) :
    WatermarkInv c := by
  induction h with
  | init lf sf lc sc a b' d e ln sn hl hs =>
    obtain ⟨i1, i2, i3, i4, i5, i6, i7⟩ := initNode_spec lf lc true a b' ln hl
    refine ⟨?_, ?_, ?_, ?_, ?_⟩ <;> dsimp only
    · omega
    · omega
    · omega
    · rw [i7]
      exact i4
    · rw [i5]
      intro p hp
      simp at hp
  | step c c' hr hs ih => exact stepWatermarkInv b c c' hs ih

end BfsSync

namespace BfsSync

/-- In every state reachable without the divergence-rewind transition,
a clear degraded-mode flag implies `applied_offset_ ≤ sync_offset_`. -/
theorem reachStrong (c : ClusterState) (h : Reach false c) :
    c.leader.masterOnly = false → c.leader.applied ≤ c.leader.sync := by
  induction h with
  | init lf sf lc sc a b' d e ln sn hl hs =>
    intro _
    obtain ⟨i1, i2, i3, i4, i5, i6, i7⟩ := initNode_spec lf lc true a b' ln hl
    dsimp only
    omega
  | step c c' hr hs ih =>
    intro hm'
    obtain ⟨hac, hsc, hcc, hcf, hts⟩ := reachWatermarkInv false c hr
    cases hs with
    | logB entry h =>
      obtain ⟨p1, p2, p3, p4, p5, p6, p7, p8⟩ := appendBlocking_proj c.leader entry
      dsimp only at hm' ⊢
      rw [p6] at hm'
      rw [p1, p8 hm']
      exact ih hm'
    | waiterSuccess hg =>
      dsimp only at hm' ⊢
      omega
    | waiterTimeout =>
      dsimp only at hm'
      exact Bool.noConfusion hm'
    | logA entry s hA =>
      obtain ⟨p1, p2, p3, p4, p5, p6, p7, p8⟩ := logAsync_proj c.leader s entry hA
      dsimp only at hm' ⊢
      rw [p5] at hm'
      rw [p1, p8 hm']
      exact ih hm'
    | drainEnd hg =>
      dsimp only at hm' ⊢
      omega
    | procTimeout o l hmem =>
      rw [procTimeoutStep] at hm' ⊢
      dsimp only at hm' ⊢
      obtain ⟨hid, hflag⟩ := porcessCallbck_timeout_flagFalse _ o l hm'
      rw [hid]
      dsimp only
      dsimp only at hflag
      exact ih hflag
    | replicate x hlt hiter hrw =>
      rcases replicateIter_cases _ _ hiter with ⟨hcorr, rfl⟩ | ⟨e, np, hre, hcase⟩
      · dsimp only at hm' ⊢
        exact ih hm'
      · obtain ⟨hb1, hb2, hb3⟩ := readEntry_ok_bounds _ _ _ _ hre
        rcases hcase with ⟨hgap, rfl⟩ | ⟨hstale, rfl⟩ | ⟨hacc, rfl⟩
        · exfalso
          have hrw2 : isRewind c = true := by
            rw [isRewind, hre]
            simp [hgap]
          exact Bool.noConfusion (hrw hrw2)
        · dsimp only at hm' ⊢
          exact ih hm'
        · obtain ⟨a1, a2, a3, a4, a5, a6, a7, a8⟩ := ackLeader_spec c.leader e np
          dsimp only at hm' ⊢
          rcases a8 hm' with hfl | hcu
          · have hia := ih hfl
            rw [a1]
            omega
          · rw [a1] at hcu ⊢
            rw [a2] at hcu
            have h6 := a6
            omega

/-! ### C3: the watermark chain -/

/-- Counterexample for C3.  The claim asserts that `applied_offset_ ≤
sync_offset_ ≤ current_offset_` holds in every reachable state in which
the degraded-mode flag is false.  But the divergence-rewind branch of
`ReplicateLog` (master_slave.cc:264-268) lowers `sync_offset_` to the
standby's offset without touching `applied_offset_` or the flag.
Concretely: `Init` a leader from a 5-byte log with a checkpoint at 5
(so `applied = sync = current = 5`), `Init` the standby with an empty log,
append one 1-byte entry with the blocking `Log`, and run one drain
iteration: the empty standby rejects with offset 0, the leader rewinds
`sync_offset_` to 0, and the resulting state (`c3final`) has the flag
false while `sync_offset_ = 0 < 5 = applied_offset_`. -/
theorem c3_counterexample :
    Reach true c3final ∧ c3final.leader.masterOnly = false ∧
    c3final.leader.sync < c3final.leader.applied := by
  refine ⟨?_, rfl, by decide⟩
  have h0 : Reach true c3init :=
    Reach.init ([1, 0, 0, 0, 7]) ([]) (some ([5, 0, 0, 0])) none 1 2 3 4
      c3initLeader svNode0 (by decide) (by decide)
  have h1 : Step true c3init c3mid := by
    have hB : Step true c3init
        ({ c3init with leader := (appendBlocking c3init.leader ([8])).1 }) :=
      Step.logB c3init ([8]) (by decide)
    have he : ({ c3init with leader := (appendBlocking c3init.leader ([8])).1 })
        = c3mid := by decide
    rw [he] at hB
    exact hB
  have h2 : Step true c3mid c3final :=
    Step.replicate c3mid c3final (by decide) (by decide) (fun hh => rfl)
  exact Reach.step c3mid c3final (Reach.step c3init c3mid h0 h1) h2

/-- C3 as amended: on the leader, in every state reachable by the
operations (`Init`, blocking and asynchronous `Log`, the replicator loop
and `PorcessCallbck`), `applied_offset_ ≤ current_offset_` and
`sync_offset_ ≤ current_offset_` hold unconditionally; and in every state
reachable without the replicator's divergence-rewind transition, a false
degraded-mode flag additionally gives the full chain `applied_offset_ ≤
sync_offset_ ≤ current_offset_`.  (The rewind may lower `sync_offset_`
below `applied_offset_` while the flag stays false, as `c3_counterexample`
shows; with the flag true `applied_offset_` may equal `current_offset_`
while `sync_offset_` lags.) -/
theorem watermark_chain_amended :
    (∀ (b : Bool) (c : ClusterState), Reach b c →
      c.leader.applied ≤ c.leader.current ∧ c.leader.sync ≤ c.leader.current) ∧
    (∀ c : ClusterState, Reach false c → c.leader.masterOnly = false →
      c.leader.applied ≤ c.leader.sync ∧ c.leader.sync ≤ c.leader.current) := by
  constructor
  · intro b c h
    obtain ⟨hac, hsc, hcc, -, -⟩ := reachWatermarkInv b c h
    exact ⟨hac, le_trans hsc hcc⟩
  · intro c h hm
    obtain ⟨hac, hsc, hcc, -, -⟩ := reachWatermarkInv false c h
    exact ⟨reachStrong c h hm, le_trans hsc hcc⟩

/-- Witness for the amended C3 at a freshly initialised pair. -/
theorem watermark_chain_amended_witness :
    (initialPair.leader.applied ≤ initialPair.leader.current ∧
     initialPair.leader.sync ≤ initialPair.leader.current) ∧
    (initialPair.leader.applied ≤ initialPair.leader.sync ∧
     initialPair.leader.sync ≤ initialPair.leader.current) :=
  ⟨watermark_chain_amended.1 true initialPair
     (Reach.init ([]) ([]) none none 1 2 3 4 lgNode0 svNode0
       (by decide) (by decide)),
   watermark_chain_amended.2 initialPair
     (Reach.init ([]) ([]) none none 1 2 3 4 lgNode0 svNode0
       (by decide) (by decide)) rfl⟩

end BfsSync
